import Mathlib

/-!
Verification development for the `shred` interaction core.

Part 1 embeds `src/js/model/Particle.js`: the particle entity, its
per-tick motion step, `moveImmediatelyToDestination` and
`setPositionAndDestination`.  JavaScript `Number` arithmetic is modelled
over the reals; `DOT/Vector2` (plus, times, distance, createPolar) and
`Math.atan2` are embedded as operations on a two-field real vector.

Part 2 embeds `src/js/view/ElectronShellView.js`: the two keyboard
listeners (the shell/nucleus selector on the view and the per-ring slot
selector on `ElectronRingNode`), `chooseElectron`, `accessibleSelect`
and the deferred `setTimeout` refocus callbacks.
-/

/-! ### DOT/Vector2 -/

/-- A 2D vector, embedding `DOT/Vector2`. -/
@[ext]
structure Vec2 where
  x : ℝ
  y : ℝ

/-- `Vector2.plus`: component-wise addition. -/
def Vec2.plus (v w : Vec2) : Vec2 := ⟨v.x + w.x, v.y + w.y⟩

/-- `Vector2.times( scalar )`: component-wise scaling. -/
def Vec2.times (v : Vec2) (s : ℝ) : Vec2 := ⟨v.x * s, v.y * s⟩

/-- `Vector2.distance`: Euclidean distance `Math.sqrt( dx*dx + dy*dy )`. -/
noncomputable def Vec2.distance (v w : Vec2) : ℝ :=
  Real.sqrt ((v.x - w.x) ^ 2 + (v.y - w.y) ^ 2)

/-- `Math.atan2( y, x )`: the angle of the point `(x, y)`, i.e. the
argument of the complex number `x + y*i` (both lie in `(-π, π]`,
and both send the origin to `0`). -/
noncomputable def atan2 (y x : ℝ) : ℝ := Complex.arg ⟨x, y⟩

/-- `Vector2.createPolar( magnitude, angle )`:
`( magnitude * cos(angle), magnitude * sin(angle) )`. -/
noncomputable def Vec2.createPolar (magnitude angle : ℝ) : Vec2 :=
  ⟨magnitude * Real.cos angle, magnitude * Real.sin angle⟩

/-! ### Particle (src/js/model/Particle.js) -/

/-- `Particle.type`: `'proton' | 'neutron' | 'electron'`. -/
inductive ParticleType
  | proton
  | neutron
  | electron
deriving DecidableEq

/-- The particle model state: one field per `Property` of `Particle.js`
plus the immutable `type`. -/
structure Particle where
  type : ParticleType
  position : Vec2
  destination : Vec2
  radius : ℝ
  velocity : ℝ
  userControlled : Bool
  zLayer : ℤ

/-- `Particle.moveImmediatelyToDestination`: teleport,
`positionProperty.set( destinationProperty.get() )`. -/
def Particle.moveImmediatelyToDestination (p : Particle) : Particle :=
  { p with position := p.destination }

/-- `Particle.step( dt )`, transcribed branch for branch from
`src/js/model/Particle.js` lines 82-103. -/
noncomputable def Particle.step (p : Particle) (dt : ℝ) : Particle :=
  if !p.userControlled then
    let position := p.position
    let destination := p.destination
    let velocity := p.velocity
    let distanceToDestination := position.distance destination
    if distanceToDestination > dt * velocity then
      let stepMagnitude := velocity * dt
      let stepAngle := atan2 (destination.y - position.y) (destination.x - position.x)
      let stepVector := Vec2.createPolar stepMagnitude stepAngle
      { p with position := position.plus stepVector }
    else if distanceToDestination > 0 then
      p.moveImmediatelyToDestination
    else
      p
  else
    p

/-- The argument of `setPositionAndDestination`: a JavaScript value that
either is a `Vector2` instance or is not (the `instanceof` test). -/
inductive JsValue
  | vector (v : Vec2)
  | nonVector

/-- The error kinds of the spec's §7 that the embedded code can surface. -/
inductive ShredError
  | invalidArgument
deriving DecidableEq

/-- `Particle.setPositionAndDestination( newPosition )`: the assertion
`assert( newPosition instanceof Vector2 )` fails on a non-vector
(modelled as an `InvalidArgument` error); on a vector it sets
`destination` and teleports. -/
def Particle.setPositionAndDestination (p : Particle) (newPosition : JsValue) :
    Except ShredError Particle :=
  match newPosition with
  | JsValue.vector v =>
      Except.ok (Particle.moveImmediatelyToDestination { p with destination := v })
  | JsValue.nonVector => Except.error ShredError.invalidArgument

/-- Modelled from the spec (§4.1 Motion Controller contract): no-op when
`userControlled`; else with `remaining = distance(position, destination)`,
if `remaining > speed * dt` move `position` along the straight-line
bearing toward `destination` by exactly `speed * dt` (the unit bearing
vector is `(destination - position) / remaining`), else if
`remaining > 0` snap `position` to `destination`, else no-op. -/
noncomputable def specMotionStep (p : Particle) (dt : ℝ) : Particle :=
  if p.userControlled then p
  else
    let remaining := p.position.distance p.destination
    if remaining > p.velocity * dt then
      { p with position :=
          ⟨p.position.x + p.velocity * dt * ((p.destination.x - p.position.x) / remaining),
           p.position.y + p.velocity * dt * ((p.destination.y - p.position.y) / remaining)⟩ }
    else if remaining > 0 then
      { p with position := p.destination }
    else
      p

/-- A concrete particle used to witness the motion-controller theorems. -/
noncomputable def demoParticle : Particle where
  type := ParticleType.proton
  position := ⟨0, 0⟩
  destination := ⟨3, 4⟩
  radius := 1
  velocity := 1
  userControlled := false
  zLayer := 0

/-! ### ElectronShellView (src/js/view/ElectronShellView.js)

The two accessible keyboard listeners and their collaborators are
embedded as pure state transformers over one combined state.  Particle
ids and bucket ids are abstract (naturals); a call to
`bucket.addParticleFirstOpen( particle, true )` is recorded in a log;
DOM focus is a single field; a scheduled `setTimeout` refocus callback
is recorded as a pending flag, and firing it is a separate transformer
(the callback body).  A JavaScript `TypeError` (a method call on
`null`/`undefined`) is modelled by `Except.error`; a thrown event
discards the event's partial writes. -/

/-- Particle id (key into the particle table). -/
abbrev PId := ℕ

/-- Bucket-front id. -/
abbrev BId := ℕ

/-- The key classes the listeners test `event.keyCode` against. -/
inductive Key
  | downArrow
  | rightArrow
  | upArrow
  | leftArrow
  | enter
  | space
  | tab
  | escape
  | other
deriving DecidableEq

/-- `event.keyCode === KEY_DOWN_ARROW || event.keyCode === KEY_RIGHT_ARROW`. -/
def Key.isDownRight : Key → Bool
  | Key.downArrow => true
  | Key.rightArrow => true
  | _ => false

/-- `event.keyCode === KEY_UP_ARROW || event.keyCode === KEY_LEFT_ARROW`. -/
def Key.isUpLeft : Key → Bool
  | Key.upArrow => true
  | Key.leftArrow => true
  | _ => false

/-- `keyCode === KEY_ENTER || KEY_SPACE || KEY_TAB || KEY_ESCAPE`
(the 'place' or 'end' condition of both listeners). -/
def Key.isPlaceOrEnd : Key → Bool
  | Key.enter => true
  | Key.space => true
  | Key.tab => true
  | Key.escape => true
  | _ => false

/-- Which `ElectronRingNode` instance (the view creates two). -/
inductive Which
  | inner
  | outer
deriving DecidableEq

/-- What currently has DOM focus among the parts this core touches. -/
inductive FocusTarget
  | blank
  | topOption (i : ℤ)
  | slotNode (w : Which) (i : ℤ)
  | bucketFront (b : BId)
deriving DecidableEq

/-- JavaScript runtime errors the listeners can raise. -/
inductive JsError
  | typeError
deriving DecidableEq

/-- The particle fields the accessible-placement code touches. -/
structure AccParticle where
  destination : Vec2
  userControlled : Bool
  isAccessibleControlled : Bool

/-- State of one `ElectronRingNode`.  `choosingElectronPlaement` is the
misspelled property that the keydown terminal branch assigns (the source
writes `self.choosingElectronPlaement = false` while every read and the
`chooseElectron` write use `choosingElectronPlacement`); it is kept as
its own field to embed the source exactly.  The per-node a11y flags of
the `electronPlacementNodes` are totalized over ℕ (indices at or above
`len` are never read). -/
structure RingNode where
  len : ℕ
  positions : ℕ → Vec2
  choosingElectronPlacement : Bool
  choosingElectronPlaement : Bool
  currentOptionIndex : ℤ
  activeParticle : Option PId
  activeBucketFront : Option BId
  previouslyFocusedElectron : ℤ
  nodeVisible : ℕ → Bool
  nodeFocusable : ℕ → Bool
  nodeAccessibleHidden : ℕ → Bool
  pendingRefocus : Bool

/-- Combined state: the particle table, the `addParticleFirstOpen` call
log, DOM focus, and the fields of `ElectronShellView` plus its two ring
nodes. -/
structure ViewState where
  particles : PId → AccParticle
  reabsorbLog : List (BId × PId)
  focus : FocusTarget
  atomParticleCount : ℕ
  selectingShellNucleusOptions : Bool
  currentOptionIndex : ℤ
  currentlyDraggedParticle : Option PId
  currentlySelectedBucketFront : Option BId
  viewFocusable : Bool
  viewAccessibleHidden : Bool
  previouslyFocusedNode : ℤ
  hoverLocations : ℤ → Vec2
  topPendingRefocus : Bool
  innerRing : RingNode
  outerRing : RingNode

/-- Read the ring node addressed by `w`. -/
def getRing (s : ViewState) (w : Which) : RingNode :=
  match w with
  | Which.inner => s.innerRing
  | Which.outer => s.outerRing

/-- Write the ring node addressed by `w`. -/
def setRing (s : ViewState) (w : Which) (r : RingNode) : ViewState :=
  match w with
  | Which.inner => { s with innerRing := r }
  | Which.outer => { s with outerRing := r }

/-- Update one particle's fields in the table. -/
def setParticle (s : ViewState) (pid : PId) (f : AccParticle → AccParticle) : ViewState :=
  { s with particles := Function.update s.particles pid (f (s.particles pid)) }

/-- The arrow-key index update of the `ElectronShellView` keydown
listener (lines 147-154): down/right increments modulo the option count
(3 options, JavaScript `%` is the truncating remainder `Int.tmod`),
up/left decrements with an explicit wrap to `length - 1`. -/
def topArrowUpdate (k : Key) (i : ℤ) : ℤ :=
  if k.isDownRight then (i + 1).tmod 3
  else if k.isUpLeft then (if i - 1 < 0 then 3 - 1 else i - 1)
  else i

/-- The arrow-key index update of the `ElectronRingNode` keydown
listener (lines 296-303): up/left increments modulo the node count,
down/right decrements with an explicit wrap to `length - 1` — the
opposite convention to `topArrowUpdate`. -/
def ringArrowUpdate (len : ℕ) (k : Key) (i : ℤ) : ℤ :=
  if k.isUpLeft then (i + 1).tmod (len : ℤ)
  else if k.isDownRight then (if i - 1 < 0 then (len : ℤ) - 1 else i - 1)
  else i

/-- `ElectronRingNode.chooseElectron( particle, bucketFront )`
(lines 364-383): store the active particle and bucket, start choosing,
reveal and make focusable every placement node, move the particle's
destination to the remembered slot's anchor scaled by 1.05, focus the
previously focused placement node and hide its idle marker. -/
def chooseElectron (w : Which) (pid : PId) (bid : BId) (s : ViewState) : ViewState :=
  let r := getRing s w
  let r1 : RingNode :=
    { r with
      activeParticle := some pid
      activeBucketFront := some bid
      choosingElectronPlacement := true
      nodeFocusable := fun _ => true
      nodeAccessibleHidden := fun _ => false
      nodeVisible := Function.update (fun _ => true) r.previouslyFocusedElectron.toNat false }
  let s1 := setRing s w r1
  let s2 := setParticle s1 pid fun a =>
    { a with destination := (r.positions r.currentOptionIndex.toNat).times 1.05 }
  { s2 with focus := FocusTarget.slotNode w r.previouslyFocusedElectron }

/-- The `ElectronShellView` keydown listener (lines 139-224). -/
def topKeydown (k : Key) (s : ViewState) : Except JsError ViewState :=
  if s.selectingShellNucleusOptions then
    if k.isDownRight || k.isUpLeft then
      let idx := topArrowUpdate k s.currentOptionIndex
      match s.currentlyDraggedParticle with
      | none => Except.error JsError.typeError
      | some pid =>
          Except.ok (setParticle
            { s with
              currentOptionIndex := idx
              focus := FocusTarget.topOption idx
              previouslyFocusedNode := idx }
            pid fun a => { a with destination := s.hoverLocations idx })
    else if k.isPlaceOrEnd then
      match s.currentlyDraggedParticle, s.currentlySelectedBucketFront with
      | some pid, some bid =>
          if s.currentOptionIndex = 0 ∨ k = Key.tab ∨ k = Key.escape then
            let s1 := if k = Key.tab ∨ k = Key.escape then
                { s with reabsorbLog := (bid, pid) :: s.reabsorbLog } else s
            let s2 := setParticle s1 pid fun a =>
              { a with userControlled := false, isAccessibleControlled := false }
            let s3 := if s2.atomParticleCount = 0 then { s2 with viewFocusable := false } else s2
            let s4 := { s3 with currentlyDraggedParticle := none }
            if k ≠ Key.tab then Except.ok { s4 with topPendingRefocus := true }
            else Except.ok { s4 with currentlySelectedBucketFront := none }
          else
            let s1 := { s with selectingShellNucleusOptions := false }
            if s.currentOptionIndex = 1 then Except.ok (chooseElectron Which.inner pid bid s1)
            else if s.currentOptionIndex = 2 then Except.ok (chooseElectron Which.outer pid bid s1)
            else Except.error JsError.typeError
      | _, _ => Except.ok s
    else Except.ok s
  else Except.ok s

/-- The `ElectronRingNode` keydown listener (lines 287-359). -/
def ringKeydown (w : Which) (k : Key) (s : ViewState) : Except JsError ViewState :=
  let r := getRing s w
  if r.choosingElectronPlacement then
    match r.activeParticle, r.activeBucketFront with
    | some pid, some bid =>
        if k.isDownRight || k.isUpLeft then
          let idx := ringArrowUpdate r.len k r.currentOptionIndex
          let r1 : RingNode :=
            { r with
              currentOptionIndex := idx
              nodeVisible := Function.update
                (Function.update r.nodeVisible r.previouslyFocusedElectron.toNat true)
                idx.toNat false
              previouslyFocusedElectron := idx }
          let s1 := setRing { s with focus := FocusTarget.slotNode w idx } w r1
          Except.ok (setParticle s1 pid fun a =>
            { a with destination := (r.positions idx.toNat).times 1.05 })
        else if k.isPlaceOrEnd then
          let s1 := if k = Key.tab ∨ k = Key.escape then
              { s with reabsorbLog := (bid, pid) :: s.reabsorbLog } else s
          let s2 := setParticle s1 pid fun a =>
            { a with userControlled := false, isAccessibleControlled := false }
          let r1 : RingNode :=
            { r with
              choosingElectronPlaement := false
              nodeFocusable := fun _ => false
              nodeAccessibleHidden := fun _ => true
              nodeVisible := fun _ => false
              activeParticle := none }
          if k ≠ Key.tab then Except.ok (setRing s2 w { r1 with pendingRefocus := true })
          else Except.ok (setRing s2 w { r1 with activeBucketFront := none })
        else Except.ok s
    | _, _ => Except.ok s
  else Except.ok s

/-- The body of the `setTimeout` callback scheduled by the
`ElectronShellView` terminal branch (lines 201-204):
`currentlySelectedBucketFront.focus(); currentlySelectedBucketFront = null;`
reading the field at fire time. -/
def fireTopRefocus (s : ViewState) : Except JsError ViewState :=
  match s.currentlySelectedBucketFront with
  | some b =>
      Except.ok { s with
        focus := FocusTarget.bucketFront b
        currentlySelectedBucketFront := none
        topPendingRefocus := false }
  | none => Except.error JsError.typeError

/-- The body of the `setTimeout` callback scheduled by the
`ElectronRingNode` terminal branch (lines 348-351). -/
def fireRingRefocus (w : Which) (s : ViewState) : Except JsError ViewState :=
  match (getRing s w).activeBucketFront with
  | some b =>
      Except.ok (setRing { s with focus := FocusTarget.bucketFront b } w
        { getRing s w with activeBucketFront := none, pendingRefocus := false })
  | none => Except.error JsError.typeError

/-- `ElectronShellView.accessibleSelect( particle, bucketFront )`
(lines 439-449): unconditionally begin a shell/nucleus selection,
unhide the view, focus the previously focused option node, and store
the given particle and bucket. -/
def accessibleSelect (pid : PId) (bid : BId) (s : ViewState) : ViewState :=
  { s with
    selectingShellNucleusOptions := true
    viewAccessibleHidden := false
    focus := FocusTarget.topOption s.previouslyFocusedNode
    currentlyDraggedParticle := some pid
    currentlySelectedBucketFront := some bid }

/-- A ring node in its as-constructed state (markers hidden, nodes not
focusable, no active session). -/
def initRing (len : ℕ) (positions : ℕ → Vec2) : RingNode where
  len := len
  positions := positions
  choosingElectronPlacement := false
  choosingElectronPlaement := false
  currentOptionIndex := 0
  activeParticle := none
  activeBucketFront := none
  previouslyFocusedElectron := 0
  nodeVisible := fun _ => false
  nodeFocusable := fun _ => false
  nodeAccessibleHidden := fun _ => false
  pendingRefocus := false

/-- The view in its as-constructed state, with the reference geometry
(two inner-shell slots, six outer-shell slots) and placeholder anchors. -/
noncomputable def initViewState : ViewState where
  particles := fun _ =>
    { destination := ⟨0, 0⟩, userControlled := true, isAccessibleControlled := true }
  reabsorbLog := []
  focus := FocusTarget.blank
  atomParticleCount := 1
  selectingShellNucleusOptions := false
  currentOptionIndex := 0
  currentlyDraggedParticle := none
  currentlySelectedBucketFront := none
  viewFocusable := true
  viewAccessibleHidden := true
  previouslyFocusedNode := 0
  hoverLocations := fun _ => ⟨10, 10⟩
  topPendingRefocus := false
  innerRing := initRing 2 fun _ => ⟨1, 0⟩
  outerRing := initRing 6 fun _ => ⟨2, 0⟩

/-- C2's failing run: begin a session on particle 1 from bucket 10,
arrow down to the inner ring, activate it (descend to the Slot level),
then cancel with Escape. -/
noncomputable def c2Run : Except JsError ViewState :=
  (topKeydown Key.downArrow (accessibleSelect 1 10 initViewState)).bind fun s1 =>
  (topKeydown Key.enter s1).bind fun s2 =>
  ringKeydown Which.inner Key.escape s2

/-- C9's failing run: commit a first session (Enter on the nucleus,
which schedules the deferred refocus to bucket 10), then begin a new
session on particle 2 from bucket 20 before the timeout fires. -/
noncomputable def c9Resumed : Except JsError ViewState :=
  (topKeydown Key.enter (accessibleSelect 1 10 initViewState)).map (accessibleSelect 2 20)

/-- C9's failing run, continued: the pending timeout fires during the
new session. -/
noncomputable def c9Fired : Except JsError ViewState := c9Resumed.bind fireTopRefocus

/-! ### Motion controller lemmas -/

lemma Vec2.distance_nonneg (v w : Vec2) : 0 ≤ v.distance w :=
  Real.sqrt_nonneg _

lemma Vec2.distance_self (v : Vec2) : v.distance v = 0 := by
  simp [Vec2.distance]

lemma Vec2.distance_eq_zero_iff (v w : Vec2) : v.distance w = 0 ↔ v = w := by
  unfold Vec2.distance
  rw [Real.sqrt_eq_zero']
  constructor
  · intro h
    have hx : (v.x - w.x) ^ 2 = 0 := by nlinarith [sq_nonneg (v.x - w.x), sq_nonneg (v.y - w.y)]
    have hy : (v.y - w.y) ^ 2 = 0 := by nlinarith [sq_nonneg (v.x - w.x), sq_nonneg (v.y - w.y)]
    have hx' : v.x = w.x := by
      have := (pow_eq_zero_iff two_ne_zero).mp hx
      linarith [this]
    have hy' : v.y = w.y := by
      have := (pow_eq_zero_iff two_ne_zero).mp hy
      linarith [this]
    exact Vec2.ext hx' hy'
  · intro h
    subst h
    simp

/-- The polar step vector of the source's far branch, rewritten as the
spec's scaled unit bearing vector: `createPolar` of magnitude `m` at
angle `atan2(qy - py, qx - px)` is `m` times the unit vector from `p`
toward `q`, whenever `p` and `q` are distinct. -/
lemma createPolar_atan2 (p q : Vec2) (m : ℝ) (hr : 0 < p.distance q) :
    Vec2.createPolar m (atan2 (q.y - p.y) (q.x - p.x)) =
      ⟨m * ((q.x - p.x) / p.distance q), m * ((q.y - p.y) / p.distance q)⟩ := by
  have habs : Complex.abs ⟨q.x - p.x, q.y - p.y⟩ = p.distance q := by
    rw [Complex.abs_apply, Complex.normSq_mk, Vec2.distance]
    congr 1
    ring
  have hz : (⟨q.x - p.x, q.y - p.y⟩ : ℂ) ≠ 0 := by
    intro h0
    rw [h0] at habs
    simp only [map_zero] at habs
    exact absurd habs.symm (ne_of_gt hr)
  have hcos := Complex.cos_arg hz
  have hsin := Complex.sin_arg (⟨q.x - p.x, q.y - p.y⟩ : ℂ)
  unfold Vec2.createPolar atan2
  rw [hcos, hsin, habs]

lemma step_destination (p : Particle) (dt : ℝ) : (p.step dt).destination = p.destination := by
  rw [Particle.step]
  dsimp only
  split_ifs <;> rfl

lemma step_velocity (p : Particle) (dt : ℝ) : (p.step dt).velocity = p.velocity := by
  rw [Particle.step]
  dsimp only
  split_ifs <;> rfl

lemma step_userControlled (p : Particle) (dt : ℝ) :
    (p.step dt).userControlled = p.userControlled := by
  rw [Particle.step]
  dsimp only
  split_ifs <;> rfl

lemma step_type (p : Particle) (dt : ℝ) : (p.step dt).type = p.type := by
  rw [Particle.step]
  dsimp only
  split_ifs <;> rfl

lemma step_radius (p : Particle) (dt : ℝ) : (p.step dt).radius = p.radius := by
  rw [Particle.step]
  dsimp only
  split_ifs <;> rfl

lemma step_zLayer (p : Particle) (dt : ℝ) : (p.step dt).zLayer = p.zLayer := by
  rw [Particle.step]
  dsimp only
  split_ifs <;> rfl

/-- Claim C1: one motion-controller step behaves exactly as the spec's
contract: no-op when `userControlled`; else if the remaining distance
exceeds `speed * dt`, move by exactly `speed * dt` along the straight
bearing (polar decomposition); else if positive, snap to the
destination; else no-op.  Stated as a refinement: the source's `step`
equals the step modelled from the spec's words, for the simulation
clock's domain `dt ≥ 0` (and the nonnegative particle speed). -/
theorem motionStep_refines_spec (p : Particle) (dt : ℝ)
    (hdt : 0 ≤ dt) (hv : 0 ≤ p.velocity) :
    p.step dt = specMotionStep p dt := by
  rw [Particle.step, specMotionStep]
  cases hu : p.userControlled with
  | true => simp
  | false =>
    simp only [Bool.not_false, if_true, Bool.false_eq_true, if_false]
    rw [mul_comm dt p.velocity]
    split_ifs with h1 h2
    · have hr : 0 < p.position.distance p.destination :=
        lt_of_le_of_lt (mul_nonneg hv hdt) h1
      rw [createPolar_atan2 p.position p.destination (p.velocity * dt) hr]
      rfl
    · simp [Particle.moveImmediatelyToDestination, hu]
    · rfl

/-- One step shrinks the remaining distance to exactly
`max (remaining - speed * dt) 0`: the far branch subtracts the step
magnitude from the remaining distance (no overshoot), the snap branch
and the at-rest branch leave zero. -/
lemma step_remaining (p : Particle) (dt : ℝ) (hu : p.userControlled = false)
    (hm : 0 < p.velocity * dt) :
    (p.step dt).position.distance p.destination
      = max (p.position.distance p.destination - p.velocity * dt) 0 := by
  rw [Particle.step]
  simp only [hu, Bool.not_false, if_true]
  rw [mul_comm dt p.velocity]
  split_ifs with h1 h2
  · have hr : 0 < p.position.distance p.destination := lt_trans hm h1
    rw [createPolar_atan2 p.position p.destination (p.velocity * dt) hr]
    set d := p.position.distance p.destination with hd
    set m := p.velocity * dt with hmdef
    have hdne : d ≠ 0 := ne_of_gt hr
    have hd2 : d ^ 2 = (p.position.x - p.destination.x) ^ 2 + (p.position.y - p.destination.y) ^ 2 := by
      rw [hd, Vec2.distance, Real.sq_sqrt (by positivity)]
    have e1 : p.position.x + m * ((p.destination.x - p.position.x) / d) - p.destination.x
        = (p.position.x - p.destination.x) * ((d - m) / d) := by
      field_simp
      ring
    have e2 : p.position.y + m * ((p.destination.y - p.position.y) / d) - p.destination.y
        = (p.position.y - p.destination.y) * ((d - m) / d) := by
      field_simp
      ring
    have lhs_eq : (p.position.plus
          ⟨m * ((p.destination.x - p.position.x) / d), m * ((p.destination.y - p.position.y) / d)⟩).distance
        p.destination = Real.sqrt ((d - m) ^ 2) := by
      rw [Vec2.distance]
      simp only [Vec2.plus]
      rw [e1, e2]
      congr 1
      have expand : ((p.position.x - p.destination.x) * ((d - m) / d)) ^ 2 +
          ((p.position.y - p.destination.y) * ((d - m) / d)) ^ 2
          = ((p.position.x - p.destination.x) ^ 2 + (p.position.y - p.destination.y) ^ 2) * ((d - m) / d) ^ 2 := by
        ring
      rw [expand, ← hd2]
      field_simp
    rw [lhs_eq, Real.sqrt_sq (by linarith), max_eq_left (by linarith)]
  · have hzero : (p.moveImmediatelyToDestination).position.distance p.destination = 0 := by
      simp [Particle.moveImmediatelyToDestination, Vec2.distance_self]
    rw [hzero, eq_comm]
    exact max_eq_right (by linarith)
  · have hd0 : p.position.distance p.destination = 0 :=
      le_antisymm (not_lt.mp h2) (Vec2.distance_nonneg _ _)
    rw [hd0, eq_comm]
    exact max_eq_right (by linarith)

lemma iterate_step_frame (p : Particle) (dt : ℝ) (n : ℕ) :
    ((fun q => Particle.step q dt)^[n] p).destination = p.destination ∧
    ((fun q => Particle.step q dt)^[n] p).velocity = p.velocity ∧
    ((fun q => Particle.step q dt)^[n] p).userControlled = p.userControlled := by
  induction n with
  | zero => exact ⟨rfl, rfl, rfl⟩
  | succ n ih =>
    rw [Function.iterate_succ_apply']
    obtain ⟨h1, h2, h3⟩ := ih
    exact ⟨(step_destination _ dt).trans h1, (step_velocity _ dt).trans h2,
      (step_userControlled _ dt).trans h3⟩

lemma max_sub_max (a m : ℝ) (hm : 0 < m) : max (max a 0 - m) 0 = max (a - m) 0 := by
  rcases le_total a 0 with h | h
  · rw [max_eq_right h, zero_sub, max_eq_right (by linarith), max_eq_right (by linarith)]
  · rw [max_eq_left h]

lemma iterate_remaining (p : Particle) (dt : ℝ) (hu : p.userControlled = false)
    (hm : 0 < p.velocity * dt) (n : ℕ) :
    ((fun q => Particle.step q dt)^[n] p).position.distance p.destination
      = max (p.position.distance p.destination - (n : ℝ) * (p.velocity * dt)) 0 := by
  induction n with
  | zero =>
    simp [max_eq_left (Vec2.distance_nonneg p.position p.destination)]
  | succ n ih =>
    rw [Function.iterate_succ_apply']
    obtain ⟨hdest, hvel, huc⟩ := iterate_step_frame p dt n
    set q := (fun q => Particle.step q dt)^[n] p with hq
    have hqu : q.userControlled = false := by rw [huc, hu]
    have hqm : 0 < q.velocity * dt := by rw [hvel]; exact hm
    have := step_remaining q dt hqu hqm
    rw [hdest] at this
    rw [this, hvel, ih, max_sub_max _ _ hm]
    congr 1
    push_cast
    ring

/-- Claim C5: with `userControlled = false` and constant `speed, dt > 0`,
repeated motion steps never overshoot: the remaining distance is
monotonically non-increasing over the iteration, the position equals the
destination exactly after `ceil(initialDistance / (speed*dt))` steps, and
the step is the identity once the remaining distance is zero. -/
theorem motionStep_no_overshoot (p : Particle) (dt : ℝ)
    (hu : p.userControlled = false) (hv : 0 < p.velocity) (hdt : 0 < dt) :
    (∀ k : ℕ,
        ((fun q => Particle.step q dt)^[k + 1] p).position.distance p.destination
          ≤ ((fun q => Particle.step q dt)^[k] p).position.distance p.destination) ∧
    ((fun q => Particle.step q dt)^[⌈p.position.distance p.destination / (p.velocity * dt)⌉₊] p).position
        = p.destination ∧
    (p.position.distance p.destination = 0 → p.step dt = p) := by
  have hm : 0 < p.velocity * dt := mul_pos hv hdt
  refine ⟨?_, ?_, ?_⟩
  · intro k
    rw [iterate_remaining p dt hu hm (k + 1), iterate_remaining p dt hu hm k]
    apply max_le_max _ le_rfl
    apply sub_le_sub_left
    apply mul_le_mul_of_nonneg_right _ hm.le
    push_cast
    linarith
  · set n := ⌈p.position.distance p.destination / (p.velocity * dt)⌉₊ with hn
    have hle : p.position.distance p.destination ≤ (n : ℝ) * (p.velocity * dt) := by
      have h1 : p.position.distance p.destination / (p.velocity * dt) ≤ (n : ℝ) := Nat.le_ceil _
      calc p.position.distance p.destination
          = p.position.distance p.destination / (p.velocity * dt) * (p.velocity * dt) := by
            field_simp
        _ ≤ (n : ℝ) * (p.velocity * dt) := by
            apply mul_le_mul_of_nonneg_right h1 hm.le
    have hzero : ((fun q => Particle.step q dt)^[n] p).position.distance p.destination = 0 := by
      rw [iterate_remaining p dt hu hm n]
      exact max_eq_right (by linarith)
    exact (Vec2.distance_eq_zero_iff _ _).mp hzero
  · intro hd0
    rw [Particle.step]
    simp only [hu, Bool.not_false, if_true]
    rw [hd0]
    have h1 : ¬ ((0 : ℝ) > dt * p.velocity) := by
      rw [mul_comm]
      exact not_lt.mpr hm.le
    rw [if_neg h1, if_neg (lt_irrefl 0)]

/-- Claim C6: `setPositionAndDestination` fails with `InvalidArgument`
on a non-vector argument; on a valid 2D point it sets the destination
and teleports the position to it, so that one immediately following
step (with the simulation clock's `dt ≥ 0`) leaves the position exactly
at the point. -/
theorem setPositionAndDestination_spec (p : Particle) (v : Vec2) (dt : ℝ)
    (hdt : 0 ≤ dt) (hv : 0 ≤ p.velocity) :
    p.setPositionAndDestination JsValue.nonVector = Except.error ShredError.invalidArgument ∧
    ∃ q : Particle, p.setPositionAndDestination (JsValue.vector v) = Except.ok q ∧
      q.destination = v ∧ q.position = v ∧ (q.step dt).position = v := by
  refine ⟨rfl, Particle.moveImmediatelyToDestination { p with destination := v }, rfl, rfl, rfl, ?_⟩
  set q : Particle := Particle.moveImmediatelyToDestination { p with destination := v } with hq
  have hqpos : q.position = v := rfl
  have hqdest : q.destination = v := rfl
  have hqvel : q.velocity = p.velocity := rfl
  rw [Particle.step]
  cases hqu : q.userControlled with
  | true => simp [hqpos]
  | false =>
    simp only [hqu, Bool.not_false, if_true]
    have hd0 : q.position.distance q.destination = 0 := by
      rw [hqpos, hqdest, Vec2.distance_self]
    rw [hd0]
    have h1 : ¬ ((0 : ℝ) > dt * q.velocity) := by
      rw [hqvel]
      exact not_lt.mpr (mul_nonneg hdt hv)
    rw [if_neg h1, if_neg (lt_irrefl 0)]
    exact hqpos

/-- Claim C10: for every particle and every `dt`, the motion step writes
at most the `position` field: destination, velocity, userControlled,
radius, zLayer and type are all unchanged. -/
theorem motionStep_frame (p : Particle) (dt : ℝ) :
    (p.step dt).destination = p.destination ∧ (p.step dt).velocity = p.velocity ∧
    (p.step dt).userControlled = p.userControlled ∧ (p.step dt).radius = p.radius ∧
    (p.step dt).zLayer = p.zLayer ∧ (p.step dt).type = p.type :=
  ⟨step_destination p dt, step_velocity p dt, step_userControlled p dt,
    step_radius p dt, step_zLayer p dt, step_type p dt⟩

/-- Witness for C1 at `demoParticle`, `dt = 1`. -/
theorem motionStep_refines_spec_witness :
    (0 : ℝ) ≤ 1 ∧ (0 : ℝ) ≤ demoParticle.velocity ∧
      demoParticle.step 1 = specMotionStep demoParticle 1 :=
  ⟨zero_le_one, by rw [demoParticle]; norm_num,
    motionStep_refines_spec demoParticle 1 zero_le_one (by rw [demoParticle]; norm_num)⟩

/-- Witness for C5 at `demoParticle`, `dt = 1`. -/
theorem motionStep_no_overshoot_witness :
    demoParticle.userControlled = false ∧ (0 : ℝ) < demoParticle.velocity ∧ (0 : ℝ) < 1 ∧
    ((∀ k : ℕ,
        ((fun q => Particle.step q 1)^[k + 1] demoParticle).position.distance demoParticle.destination
          ≤ ((fun q => Particle.step q 1)^[k] demoParticle).position.distance demoParticle.destination) ∧
    ((fun q => Particle.step q 1)^[⌈demoParticle.position.distance demoParticle.destination / (demoParticle.velocity * 1)⌉₊] demoParticle).position
        = demoParticle.destination ∧
    (demoParticle.position.distance demoParticle.destination = 0 → demoParticle.step 1 = demoParticle)) :=
  ⟨rfl, by rw [demoParticle]; norm_num, zero_lt_one,
    motionStep_no_overshoot demoParticle 1 rfl (by rw [demoParticle]; norm_num) zero_lt_one⟩

/-- Witness for C6 at `demoParticle`, the point `(5, 6)`, `dt = 1`. -/
theorem setPositionAndDestination_spec_witness :
    (0 : ℝ) ≤ 1 ∧ (0 : ℝ) ≤ demoParticle.velocity ∧
    (demoParticle.setPositionAndDestination JsValue.nonVector
        = Except.error ShredError.invalidArgument ∧
      ∃ q : Particle,
        demoParticle.setPositionAndDestination (JsValue.vector ⟨5, 6⟩) = Except.ok q ∧
        q.destination = ⟨5, 6⟩ ∧ q.position = ⟨5, 6⟩ ∧ (q.step 1).position = ⟨5, 6⟩) :=
  ⟨zero_le_one, by rw [demoParticle]; norm_num,
    setPositionAndDestination_spec demoParticle ⟨5, 6⟩ 1 zero_le_one
      (by rw [demoParticle]; norm_num)⟩

/-! ### Index arithmetic lemmas -/

lemma inc_iterate (L : ℤ) (hL : 0 < L) :
    ∀ (n : ℕ) (i : ℤ), 0 ≤ i → i < L →
      (fun j => (j + 1).tmod L)^[n] i = (i + n) % L := by
  intro n
  induction n with
  | zero =>
    intro i h0 h1
    simpa using (Int.emod_eq_of_lt h0 h1).symm
  | succ n ih =>
    intro i h0 h1
    rw [Function.iterate_succ_apply]
    have hstep : (i + 1).tmod L = (i + 1) % L :=
      Int.tmod_eq_emod (by linarith) hL.le
    rw [hstep]
    have hb : L ≠ 0 := ne_of_gt hL
    rw [ih _ (Int.emod_nonneg _ hb) (Int.emod_lt_of_pos _ hL), Int.emod_add_emod]
    congr 1
    push_cast
    ring

lemma dec_step (L : ℤ) (hL : 0 < L) (i : ℤ) (h0 : 0 ≤ i) (h1 : i < L) :
    (if i - 1 < 0 then L - 1 else i - 1) = (i - 1) % L := by
  rcases eq_or_lt_of_le h0 with h | h
  · have hi : i = 0 := h.symm
    subst hi
    rw [if_pos (by norm_num)]
    have e1 : ((0 : ℤ) - 1) % L = ((-1) + L * 1) % L := by
      rw [Int.add_mul_emod_self_left]
      norm_num
    rw [e1]
    have e2 : (-1) + L * 1 = L - 1 := by ring
    rw [e2, Int.emod_eq_of_lt (by linarith) (by linarith)]
  · rw [if_neg (by linarith), Int.emod_eq_of_lt (by linarith) (by linarith)]

lemma dec_iterate (L : ℤ) (hL : 0 < L) :
    ∀ (n : ℕ) (i : ℤ), 0 ≤ i → i < L →
      (fun j => if j - 1 < 0 then L - 1 else j - 1)^[n] i = (i - n) % L := by
  intro n
  induction n with
  | zero =>
    intro i h0 h1
    simpa using (Int.emod_eq_of_lt h0 h1).symm
  | succ n ih =>
    intro i h0 h1
    rw [Function.iterate_succ_apply]
    have hstep : (if i - 1 < 0 then L - 1 else i - 1) = (i - 1) % L :=
      dec_step L hL i h0 h1
    rw [hstep]
    have hb : L ≠ 0 := ne_of_gt hL
    rw [ih _ (Int.emod_nonneg _ hb) (Int.emod_lt_of_pos _ hL)]
    have e3 : ((i - 1) % L - (n : ℤ)) % L = ((i - 1) - (n : ℤ)) % L := by
      conv_lhs => rw [Int.sub_emod]
      rw [Int.emod_emod_of_dvd _ dvd_rfl, ← Int.sub_emod]
    rw [e3]
    congr 1
    push_cast
    ring

lemma cycle_emod (L : ℤ) (n : ℕ) (hn : (n : ℤ) = L) (i : ℤ)
    (h0 : 0 ≤ i) (h1 : i < L) : (i + (n : ℤ)) % L = i ∧ (i - (n : ℤ)) % L = i := by
  constructor
  · have e : i + (n : ℤ) = i + L * 1 := by rw [hn]; ring
    rw [e, Int.add_mul_emod_self_left, Int.emod_eq_of_lt h0 h1]
  · have e : i - (n : ℤ) = i + L * (-1) := by rw [hn]; ring
    rw [e, Int.add_mul_emod_self_left, Int.emod_eq_of_lt h0 h1]

lemma inc_range (L : ℤ) (hL : 0 < L) (i : ℤ) (h0 : 0 ≤ i) :
    0 ≤ (i + 1).tmod L ∧ (i + 1).tmod L < L := by
  rw [Int.tmod_eq_emod (by linarith) hL.le]
  exact ⟨Int.emod_nonneg _ (ne_of_gt hL), Int.emod_lt_of_pos _ hL⟩

lemma dec_range (L : ℤ) (hL : 0 < L) (i : ℤ) (h1 : i < L) :
    0 ≤ (if i - 1 < 0 then L - 1 else i - 1) ∧ (if i - 1 < 0 then L - 1 else i - 1) < L := by
  split_ifs with h <;> omega

/-! ### Claim theorems for the placement state machine -/

/-- Claim C7: from any in-range index, applying either arrow-key class
three times at the Top level returns `currentOptionIndex` to its
original value, and applying it `len` times at the Slot level returns
the slot index to its original value; a single update in either
direction at either level always lands back in `[0, len)` — in
particular it is never negative. -/
theorem arrow_index_cycles (k : Key) (hk : k.isDownRight = true ∨ k.isUpLeft = true)
    (len : ℕ) (hlen : 0 < len) (i j : ℤ)
    (hi0 : 0 ≤ i) (hi1 : i < (len : ℤ)) (hj0 : 0 ≤ j) (hj1 : j < 3) :
    ((topArrowUpdate k)^[3] j = j ∧ 0 ≤ topArrowUpdate k j ∧ topArrowUpdate k j < 3) ∧
    ((ringArrowUpdate len k)^[len] i = i ∧
      0 ≤ ringArrowUpdate len k i ∧ ringArrowUpdate len k i < (len : ℤ)) := by
  have hL3 : (0 : ℤ) < 3 := by norm_num
  have hLl : (0 : ℤ) < (len : ℤ) := by exact_mod_cast hlen
  have hn3 : ((3 : ℕ) : ℤ) = 3 := by norm_num
  have hnl : ((len : ℕ) : ℤ) = (len : ℤ) := rfl
  rcases hk with hdr | hul
  · have hul' : k.isUpLeft = false := by
      cases k <;> simp_all [Key.isDownRight, Key.isUpLeft]
    have htop : topArrowUpdate k = fun a => (a + 1).tmod 3 := by
      funext a
      simp [topArrowUpdate, hdr]
    have hring : ringArrowUpdate len k = fun a =>
        if a - 1 < 0 then (len : ℤ) - 1 else a - 1 := by
      funext a
      simp [ringArrowUpdate, hdr, hul']
    refine ⟨⟨?_, ?_, ?_⟩, ?_, ?_, ?_⟩
    · rw [htop, inc_iterate 3 hL3 3 j hj0 hj1]
      exact (cycle_emod 3 3 hn3 j hj0 hj1).1
    · simp only [htop]
      exact (inc_range 3 hL3 j hj0).1
    · simp only [htop]
      exact (inc_range 3 hL3 j hj0).2
    · rw [hring, dec_iterate (len : ℤ) hLl len i hi0 hi1]
      exact (cycle_emod (len : ℤ) len hnl i hi0 hi1).2
    · simp only [hring]
      exact (dec_range (len : ℤ) hLl i hi1).1
    · simp only [hring]
      exact (dec_range (len : ℤ) hLl i hi1).2
  · have hdr' : k.isDownRight = false := by
      cases k <;> simp_all [Key.isDownRight, Key.isUpLeft]
    have htop : topArrowUpdate k = fun a => if a - 1 < 0 then 3 - 1 else a - 1 := by
      funext a
      simp [topArrowUpdate, hdr', hul]
    have hring : ringArrowUpdate len k = fun a => (a + 1).tmod (len : ℤ) := by
      funext a
      simp [ringArrowUpdate, hul]
    refine ⟨⟨?_, ?_, ?_⟩, ?_, ?_, ?_⟩
    · rw [htop, dec_iterate 3 hL3 3 j hj0 hj1]
      exact (cycle_emod 3 3 hn3 j hj0 hj1).2
    · simp only [htop]
      exact (dec_range 3 hL3 j hj1).1
    · simp only [htop]
      exact (dec_range 3 hL3 j hj1).2
    · rw [hring, inc_iterate (len : ℤ) hLl len i hi0 hi1]
      exact (cycle_emod (len : ℤ) len hnl i hi0 hi1).1
    · simp only [hring]
      exact (inc_range (len : ℤ) hLl i hi0).1
    · simp only [hring]
      exact (inc_range (len : ℤ) hLl i hi0).2

/-- Witness for C7 at the down-arrow key, slot count 6, slot index 4,
top index 2. -/
theorem arrow_index_cycles_witness :
    (Key.downArrow.isDownRight = true ∨ Key.downArrow.isUpLeft = true) ∧ 0 < 6 ∧
    (0 : ℤ) ≤ 4 ∧ (4 : ℤ) < ((6 : ℕ) : ℤ) ∧ (0 : ℤ) ≤ 2 ∧ (2 : ℤ) < 3 ∧
    (((topArrowUpdate Key.downArrow)^[3] 2 = 2 ∧
        0 ≤ topArrowUpdate Key.downArrow 2 ∧ topArrowUpdate Key.downArrow 2 < 3) ∧
      ((ringArrowUpdate 6 Key.downArrow)^[6] 4 = 4 ∧
        0 ≤ ringArrowUpdate 6 Key.downArrow 4 ∧
        ringArrowUpdate 6 Key.downArrow 4 < ((6 : ℕ) : ℤ))) :=
  ⟨Or.inl rfl, by norm_num, by norm_num, by norm_num, by norm_num, by norm_num,
    arrow_index_cycles Key.downArrow (Or.inl rfl) 6 (by norm_num) 4 2
      (by norm_num) (by norm_num) (by norm_num) (by norm_num)⟩

/-- Claim C8: when no placement session is active, every activate
(Enter/Space), cancel (Escape) and advanceOut (Tab) event is a no-op at
both listeners — the returned state is the input state unchanged — and
no error is raised. -/
theorem idle_terminal_events_noop (s : ViewState) (k : Key)
    (hk : k = Key.enter ∨ k = Key.space ∨ k = Key.tab ∨ k = Key.escape) :
    (s.selectingShellNucleusOptions = false → topKeydown k s = Except.ok s) ∧
    (∀ w : Which,
      (getRing s w).choosingElectronPlacement = false ∨
        (getRing s w).activeParticle = none ∨ (getRing s w).activeBucketFront = none →
      ringKeydown w k s = Except.ok s) := by
  constructor
  · intro h
    simp [topKeydown, h]
  · intro w hw
    cases hflag : (getRing s w).choosingElectronPlacement with
    | false => simp [ringKeydown, hflag]
    | true =>
      rcases hp : (getRing s w).activeParticle with _ | pid
      · simp [ringKeydown, hflag, hp]
      · rcases hb : (getRing s w).activeBucketFront with _ | bid
        · simp [ringKeydown, hflag, hp, hb]
        · rcases hw with h | h | h <;> simp_all

/-- Witness for C8 at the as-constructed view state and the Escape key. -/
theorem idle_terminal_events_noop_witness :
    (Key.escape = Key.enter ∨ Key.escape = Key.space ∨ Key.escape = Key.tab ∨
      Key.escape = Key.escape) ∧
    ((initViewState.selectingShellNucleusOptions = false →
        topKeydown Key.escape initViewState = Except.ok initViewState) ∧
      (∀ w : Which,
        (getRing initViewState w).choosingElectronPlacement = false ∨
          (getRing initViewState w).activeParticle = none ∨
          (getRing initViewState w).activeBucketFront = none →
        ringKeydown w Key.escape initViewState = Except.ok initViewState)) :=
  ⟨Or.inr (Or.inr (Or.inr rfl)),
    idle_terminal_events_noop initViewState Key.escape (Or.inr (Or.inr (Or.inr rfl)))⟩

/-! ### Code-bug exhibits -/

/-- Claim C4's failing input, evaluated: the down-arrow key class
increments the index at the Top level (`0 → 1`) but decrements it at
the Slot level (`0 → 5` with six slots), and dually for up/left — the
two levels use opposite conventions, not a single one. -/
theorem arrow_mapping_inverted_between_levels :
    topArrowUpdate Key.downArrow 0 = 1 ∧ ringArrowUpdate 6 Key.downArrow 0 = 5 ∧
    topArrowUpdate Key.upArrow 0 = 2 ∧ ringArrowUpdate 6 Key.upArrow 0 = 1 := by
  decide

/-- Claim C3's failing input, evaluated: `accessibleSelect` performs no
conflict check (its type is a total state transformer with no error
outcome); calling it while a session holding particle 1 and bucket 10
is active silently replaces the session's particle and origin with the
new arguments instead of rejecting the call. -/
theorem accessibleSelect_overwrites_active_session :
    ((accessibleSelect 1 10 initViewState).currentlyDraggedParticle,
      (accessibleSelect 1 10 initViewState).currentlySelectedBucketFront,
      (accessibleSelect 1 10 initViewState).currentOptionIndex,
      (accessibleSelect 1 10 initViewState).selectingShellNucleusOptions)
      = (some 1, some 10, 0, true) ∧
    ((accessibleSelect 2 20 (accessibleSelect 1 10 initViewState)).currentlyDraggedParticle,
      (accessibleSelect 2 20 (accessibleSelect 1 10 initViewState)).currentlySelectedBucketFront,
      (accessibleSelect 2 20 (accessibleSelect 1 10 initViewState)).currentOptionIndex,
      (accessibleSelect 2 20 (accessibleSelect 1 10 initViewState)).selectingShellNucleusOptions)
      = (some 2, some 20, 0, true) :=
  ⟨rfl, rfl⟩

/-- Claim C2's failing input, evaluated.  On the Escape (cancel) at the
Slot level the code does reabsorb the particle into its origin, clears
`userControlled`, resets the slot flags and schedules the deferred
refocus — but the session is not cleared: the terminal branch assigns
the misspelled `choosingElectronPlaement`, so `choosingElectronPlacement`
is still `true` afterwards; and a commit at the Top level (second
conjunct, Enter on the nucleus) leaves `selectingShellNucleusOptions`
`true` as well. -/
theorem terminal_event_leaves_session_flag_set :
    c2Run.map (fun s =>
        (s.innerRing.choosingElectronPlacement, s.innerRing.activeParticle,
          s.reabsorbLog, (s.particles 1).userControlled,
          s.innerRing.nodeFocusable 0, s.innerRing.nodeVisible 0,
          s.innerRing.nodeAccessibleHidden 0, s.innerRing.pendingRefocus))
      = Except.ok (true, none, [(10, 1)], false, false, false, true, true) ∧
    (topKeydown Key.enter (accessibleSelect 1 10 initViewState)).map (fun s =>
        (s.selectingShellNucleusOptions, s.currentlyDraggedParticle,
          s.topPendingRefocus, (s.particles 1).userControlled, s.reabsorbLog))
      = Except.ok (true, none, true, false, []) :=
  ⟨rfl, rfl⟩

/-- Claim C9's failing input, evaluated.  `accessibleSelect` does not
cancel or supersede the pending refocus (first conjunct: the timeout is
still pending inside the new session, whose focus sits on the top
option); when the stale callback fires it steals focus — it moves DOM
focus to the bucket front while the new session is still active — and
also nulls the new session's `currentlySelectedBucketFront` (second
conjunct). -/
theorem stale_refocus_not_cancelled :
    c9Resumed.map (fun s =>
        (s.topPendingRefocus, s.currentlySelectedBucketFront, s.focus,
          s.selectingShellNucleusOptions, s.currentlyDraggedParticle))
      = Except.ok (true, some 20, FocusTarget.topOption 0, true, some 2) ∧
    c9Fired.map (fun s =>
        (s.focus, s.currentlySelectedBucketFront, s.selectingShellNucleusOptions,
          s.currentlyDraggedParticle))
      = Except.ok (FocusTarget.bucketFront 20, none, true, some 2) :=
  ⟨rfl, rfl⟩
